import Mathlib

/-!
# Highlight synchronization engine — formal model

A shallow embedding of `src/parsers/parser.js`: the synchronization engine that
takes normalized `(book, highlights)` tuples and reconciles them against a
remote document store ("books" and "highlights" collections) through a
process-local cache.

Effects are modelled by explicit state passing over a `World` that carries the
remote collections, the lazily populated caches, the trace of issued remote
calls, a failure schedule (which remote calls succeed), the stream of locally
generated uuids, the log, and the current clock reading.  A remote request
either succeeds (updating the store) or fails; a failure short-circuits the
promise chain, exactly as an uncaught rejection stops all further callbacks in
the source.
-/

set_option maxHeartbeats 1000000

namespace HighlightUtils

/-- A JavaScript-like value for the `location` field of a candidate highlight.
The source evaluates `highlight.location ? String(highlight.location) : null`
(parser.js line 115), so absence and falsy values (the number `0`, the empty
string) behave differently from truthy ones. -/
inductive LocValue where
  | undef
  | num (n : Int)
  | str (s : String)
deriving DecidableEq

/-- JS truthiness of a `LocValue` (`undefined`, `0` and the empty string are falsy). -/
def LocValue.truthy : LocValue → Bool
  | .undef => false
  | .num n => n != 0
  | .str s => s != ""

/-- JS `String(v)` applied to a `LocValue`. -/
def LocValue.toJsString : LocValue → String
  | .undef => "undefined"
  | .num n => toString n
  | .str s => s

/-- JS truthiness of an optional string field (`undefined` and `""` are falsy). -/
def strTruthy : Option String → Bool
  | none => false
  | some s => s != ""

/-- Model of JS `String.prototype.trim`: strip leading and trailing whitespace. -/
def jsTrim (s : String) : String :=
  ⟨((s.data.dropWhile Char.isWhitespace).reverse.dropWhile Char.isWhitespace).reverse⟩

/-- A candidate highlight as produced by the format parsers (spec section 6):
carries at minimum `content`; optionally `date`, `location`, `comments`,
`source`, `user`.  Absent (`undefined`) string fields are `none`. -/
structure Highlight where
  content : String
  date : Option String := none
  location : LocValue := .undef
  comments : Option String := none
  source : Option String := none
  user : Option String := none
deriving DecidableEq

/-- The metadata block of a persisted highlight document (parser.js lines 112-117,
plus the conditionally added `highlighted_on` / `highlight_by` fields). -/
structure HighlightMeta where
  book_uuid : String
  comments : Option String := none
  location : Option String := none
  source : Option String := none
  highlighted_on : Option String := none
  highlight_by : Option String := none
deriving DecidableEq

/-- A persisted highlight document (parser.js lines 108-118). -/
structure HighlightRec where
  body : String
  title : String
  path : String
  metadata : HighlightMeta
deriving DecidableEq

/-- The partial metadata a candidate book carries into `getBook`
(parser.js lines 37-41): author, asin and a freshly generated correlation uuid. -/
structure BookCandMeta where
  author : Option String := none
  asin : Option String := none
  uuid : String
deriving DecidableEq

/-- The argument of `getBook` / `createBook` (parser.js lines 35-42). -/
structure BookParams where
  title : String
  metadata : BookCandMeta
deriving DecidableEq

/-- The full metadata block of a persisted book document: the candidate metadata
merged with `original_title` and a creation `date` (parser.js lines 174-177). -/
structure BookMeta where
  author : Option String := none
  asin : Option String := none
  uuid : String
  original_title : String
  date : String
deriving DecidableEq

/-- A persisted book document. -/
structure BookRec where
  title : String
  metadata : BookMeta
deriving DecidableEq

/-- The book part of a parsed tuple (parser.js lines 35-40 read `title`,
`author`, `asin` from it). -/
structure InputBook where
  title : String
  author : Option String := none
  asin : Option String := none
deriving DecidableEq

/-- One `(book, highlights)` tuple as produced by a format parser. -/
structure ParsedTuple where
  book : InputBook
  highlights : List Highlight
deriving DecidableEq

/-! ## Models of the external string helpers

`truncate` and `slug` are external npm collaborators (spec section 1 places
them out of scope); none of the claims depend on their exact behaviour, only
on the fact that they are pure string functions. -/

/-- Model of the external `truncate(s, n)` helper with its default ellipsis. -/
def truncateStr (s : String) (n : Nat) : String :=
  if s.data.length ≤ n then s else ⟨s.data.take n ++ "…".data⟩

/-- Model of `truncate(s, n, \x7b ellipsis: null \x7d)` (no ellipsis appended). -/
def truncateNoEllipsis (s : String) (n : Nat) : String :=
  if s.data.length ≤ n then s else ⟨s.data.take n⟩

/-- Model of the external `slug` helper: spaces become dashes. -/
def slugStr (s : String) : String :=
  ⟨s.data.map (fun c => if c = ' ' then '-' else c)⟩

/-- Model of `slug(s, \x7b lower: true \x7d)`. -/
def slugLower (s : String) : String :=
  ⟨(slugStr s).data.map Char.toLower⟩

/-! ## Model of the date-normalization collaborator

Modelled from the spec: `moment(dateString, [moment.ISO_8601, 'MMMM D, YYYY'])`
followed by `toISOString()` (parser.js lines 120-129) is an external library
call; spec section 6 specifies it as "given a raw date string, returns a
normalized ISO-8601 instant or a not-parseable signal".  The model parses a
calendar-date ISO-8601 subset (`YYYY-MM-DD`, optional `THH:MM:SS`, optional
trailing `Z`) and the literal format `MMMM D, YYYY`, and renders the result
the way `toISOString` does on a UTC host. -/

/-- Split a character list at every occurrence of a separator character. -/
def splitOnChar (sep : Char) : List Char → List (List Char)
  | [] => [[]]
  | c :: rest =>
    let groups := splitOnChar sep rest
    if c = sep then [] :: groups
    else
      match groups with
      | [] => [[c]]
      | g :: gs => (c :: g) :: gs

/-- Accumulate the decimal value of a digit list. -/
def digitsVal : List Char → Nat → Option Nat
  | [], acc => some acc
  | c :: rest, acc =>
      if c.isDigit then digitsVal rest (acc * 10 + (c.toNat - 48)) else none

/-- Decimal value of a non-empty digit list. -/
def digitsToNat? (cs : List Char) : Option Nat :=
  if cs.isEmpty then none else digitsVal cs 0

/-- English month names, in order, for the `MMMM` format token. -/
def monthNames : List String :=
  ["January", "February", "March", "April", "May", "June",
   "July", "August", "September", "October", "November", "December"]

/-- Month number (1-based) of an English month name. -/
def monthIndex? (m : List Char) : Option Nat :=
  ((monthNames.map String.data).findIdx? (fun n => n == m)).map (· + 1)

/-- Render a number as two digits. -/
def pad2 (n : Nat) : String := if n < 10 then "0" ++ toString n else toString n

/-- Render a number as four digits. -/
def pad4 (n : Nat) : String :=
  if n < 10 then "000" ++ toString n
  else if n < 100 then "00" ++ toString n
  else if n < 1000 then "0" ++ toString n
  else toString n

/-- A parsed calendar date-time (always interpreted in UTC by the model). -/
structure DateTime where
  year : Nat
  month : Nat
  day : Nat
  hour : Nat
  minute : Nat
  second : Nat
deriving DecidableEq

/-- Parse the `YYYY-MM-DD` part of an ISO-8601 date. -/
def parseIsoDate (cs : List Char) : Option (Nat × Nat × Nat) :=
  match splitOnChar '-' cs with
  | [y, m, d] =>
    match digitsToNat? y, digitsToNat? m, digitsToNat? d with
    | some yn, some mn, some dn =>
        if y.length = 4 ∧ 1 ≤ mn ∧ mn ≤ 12 ∧ 1 ≤ dn ∧ dn ≤ 31 then
          some (yn, mn, dn)
        else none
    | _, _, _ => none
  | _ => none

/-- Parse the `HH:MM:SS` part of an ISO-8601 time, tolerating a trailing `Z`. -/
def parseIsoTime (cs : List Char) : Option (Nat × Nat × Nat) :=
  let cs := if cs.getLast? = some 'Z' then cs.dropLast else cs
  match splitOnChar ':' cs with
  | [h, m, sec] =>
    match digitsToNat? h, digitsToNat? m, digitsToNat? sec with
    | some hn, some mn, some sn =>
        if hn ≤ 23 ∧ mn ≤ 59 ∧ sn ≤ 59 then some (hn, mn, sn) else none
    | _, _, _ => none
  | _ => none

/-- Parse the modelled ISO-8601 subset. -/
def parseIso (s : String) : Option DateTime :=
  match splitOnChar 'T' s.data with
  | [d] => (parseIsoDate d).map (fun x => ⟨x.1, x.2.1, x.2.2, 0, 0, 0⟩)
  | [d, t] =>
    match parseIsoDate d, parseIsoTime t with
    | some x, some y => some ⟨x.1, x.2.1, x.2.2, y.1, y.2.1, y.2.2⟩
    | _, _ => none
  | _ => none

/-- Parse the literal `MMMM D, YYYY` format, e.g. `March 3, 2020`. -/
def parseMonthDY (s : String) : Option DateTime :=
  match splitOnChar ',' s.data with
  | [md, yRest] =>
    match yRest with
    | ' ' :: y =>
      match splitOnChar ' ' md with
      | [m, d] =>
        match monthIndex? m, digitsToNat? d, digitsToNat? y with
        | some mn, some dn, some yn =>
            if 1 ≤ dn ∧ dn ≤ 31 ∧ y.length = 4 then some ⟨yn, mn, dn, 0, 0, 0⟩
            else none
        | _, _, _ => none
      | _ => none
    | _ => none
  | _ => none

/-- Render a `DateTime` the way `moment.toISOString()` does (UTC, millisecond
precision). -/
def DateTime.toIsoString (t : DateTime) : String :=
  pad4 t.year ++ "-" ++ pad2 t.month ++ "-" ++ pad2 t.day ++ "T" ++
    pad2 t.hour ++ ":" ++ pad2 t.minute ++ ":" ++ pad2 t.second ++ ".000Z"

/-- The date-normalization collaborator: the first format in
`[moment.ISO_8601, 'MMMM D, YYYY']` that parses wins; `none` is the
not-parseable signal (`!highlightMoment.isValid()`). -/
def normalizeDate (s : String) : Option String :=
  match parseIso s with
  | some t => some t.toIsoString
  | none => (parseMonthDY s).map DateTime.toIsoString

/-! ## The effect world -/

/-- Log lines whose content matters to the engine's contract.  The progress
`console.log` lines (counts, timers) carry no state and are not modelled; the
invalid-date warning (parser.js line 127) is. -/
inductive LogEvent where
  | invalidDate (s : String)
deriving DecidableEq

/-- One remote API request, as recorded in the trace. -/
inductive RemoteCall where
  | listBooks
  | listHighlights
  | createBookCall (b : BookRec)
  | createHighlightCall (h : HighlightRec)
deriving DecidableEq

/-- Is this remote call a create (write)? -/
def RemoteCall.isCreate : RemoteCall → Bool
  | .createBookCall _ => true
  | .createHighlightCall _ => true
  | _ => false

/-- Number of create calls in a trace. -/
def countCreates (t : List RemoteCall) : Nat :=
  (t.filter RemoteCall.isCreate).length

/-- The whole observable state: remote store, process-local cache
(parser.js lines 19-22, both entries start `null`), trace of issued remote
calls, failure schedule (`schedule n` tells whether the n-th remote call
succeeds), uuid stream, log and clock. -/
structure World where
  remoteBooks : List BookRec
  remoteHighlights : List HighlightRec
  cacheBooks : Option (List BookRec)
  cacheHighlights : Option (List HighlightRec)
  trace : List RemoteCall
  nCalls : Nat
  schedule : Nat → Bool
  uuidOf : Nat → String
  nUuids : Nat
  log : List LogEvent
  now : String

/-- Outcome of a computation: success with a value, or a remote failure.  Both
carry the world at that point, so the trace of calls issued before a failure
stays observable (the store-side effects of a failed run are real). -/
inductive Result (α : Type) where
  | ok (a : α) (w : World)
  | err (w : World)

/-- The world of a `Result`, whichever outcome. -/
def Result.world {α : Type} : Result α → World
  | .ok _ w => w
  | .err w => w

/-- The promise-chain monad: explicit state passing with short-circuit on a
remote failure (an uncaught rejection stops every later `.then` callback). -/
def M (α : Type) : Type := World → Result α

instance : Monad M where
  pure a := fun w => .ok a w
  bind x f := fun w =>
    match x w with
    | .ok a w' => f a w'
    | .err w' => .err w'

@[simp] theorem M.bind_apply {α β : Type} (x : M α) (f : α → M β) (w : World) :
    (x >>= f) w = match x w with | .ok a w' => f a w' | .err w' => .err w' := rfl

@[simp] theorem M.pure_apply {α : Type} (a : α) (w : World) :
    (pure a : M α) w = .ok a w := rfl

/-! ## Remote-store and local primitives -/

/-- Record that a remote call was issued (it enters the trace and consumes one
schedule slot whether it succeeds or fails). -/
def issue (c : RemoteCall) (w : World) : World :=
  { w with trace := w.trace ++ [c], nCalls := w.nCalls + 1 }

/-- Remote `siteleaf.request` listing the books collection (large page-size ceiling:
the whole listing comes back in one read). -/
def remoteListBooks : M (List BookRec) := fun w =>
  if w.schedule w.nCalls then .ok w.remoteBooks (issue .listBooks w)
  else .err (issue .listBooks w)

/-- Remote `siteleaf.request` listing the highlights collection. -/
def remoteListHighlights : M (List HighlightRec) := fun w =>
  if w.schedule w.nCalls then .ok w.remoteHighlights (issue .listHighlights w)
  else .err (issue .listHighlights w)

/-- Remote `siteleaf.request` POSTing a book document; the response echoes the created
document. -/
def remoteCreateBook (b : BookRec) : M BookRec := fun w =>
  if w.schedule w.nCalls then
    .ok b { issue (.createBookCall b) w with remoteBooks := w.remoteBooks ++ [b] }
  else .err (issue (.createBookCall b) w)

/-- Remote `siteleaf.request` POSTing a highlight document. -/
def remoteCreateHighlight (h : HighlightRec) : M HighlightRec := fun w =>
  if w.schedule w.nCalls then
    .ok h { issue (.createHighlightCall h) w with
            remoteHighlights := w.remoteHighlights ++ [h] }
  else .err (issue (.createHighlightCall h) w)

/-- Model of `uuid.v4()`: the next value of the world's uuid stream. -/
def freshUuid : M String := fun w =>
  .ok (w.uuidOf w.nUuids) { w with nUuids := w.nUuids + 1 }

/-- Append log lines. -/
def logEvents (es : List LogEvent) : M Unit := fun w =>
  .ok () { w with log := w.log ++ es }

/-- Model of `moment()` at book-creation time (parser.js line 176), already rendered in
the fixed UTC-5 offset. -/
def currentTime : M String := fun w => .ok w.now w

/-- Source `cache.highlights.push(highlight)` (parser.js line 138); the cache is
always populated at this point, having been read by `getHighlights` earlier in
the chain. -/
def pushCacheHighlight (h : HighlightRec) : M Unit := fun w =>
  .ok () { w with cacheHighlights := w.cacheHighlights.map (fun l => l ++ [h]) }

/-- Source `cache.books.push(book)` (parser.js line 184); populated by `getBooks`. -/
def pushCacheBook (b : BookRec) : M Unit := fun w =>
  .ok () { w with cacheBooks := w.cacheBooks.map (fun l => l ++ [b]) }

/-! ## The engine, function by function -/

/-- Source `getHighlights` (parser.js lines 47-57): return the cached highlight
listing if present (an empty cached array is truthy in JS and is returned as
well), otherwise read the full remote listing once and memoize it. -/
def getHighlights : M (List HighlightRec) := fun w =>
  match w.cacheHighlights with
  | some hs => .ok hs w
  | none =>
    match remoteListHighlights w with
    | .ok hs w' => .ok hs { w' with cacheHighlights := some hs }
    | .err w' => .err w'

/-- Source `filterOutExistingHighlights` (parser.js lines 59-82): with a non-empty
existing listing, narrow it to the records whose `metadata.book_uuid` equals
the resolved book's `metadata.uuid` (lodash `where` does a partial deep match);
if that scoped subset is non-empty, reject every candidate whose trimmed
`content` equals the trimmed `body` of one of them. -/
def filterOutExistingHighlights (book : BookRec) (newHighlights : List Highlight)
    (existingHighlights : List HighlightRec) : List Highlight :=
  if existingHighlights.isEmpty then newHighlights
  else
    let sameBook := existingHighlights.filter
      (fun h => h.metadata.book_uuid == book.metadata.uuid)
    if !sameBook.isEmpty then
      let highlightBodies := sameBook.map (fun h => jsTrim h.body)
      newHighlights.filter (fun h => !(highlightBodies.contains (jsTrim h.content)))
    else newHighlights

/-- The document body `createHighlight` builds (parser.js lines 106-131):
derived title and path, metadata with the owning book's uuid, stringified
truthy location, normalized `highlighted_on` when the date parses (the field is
omitted otherwise), and `highlight_by` when a user attribution exists. -/
def highlightParams (highlight : Highlight) (book : BookRec) (pathToken : String) :
    HighlightRec :=
  let truncatedTitle := truncateNoEllipsis book.title 20
  let base : HighlightRec :=
    { body := highlight.content,
      title := truncatedTitle ++ ": " ++ truncateStr highlight.content 60,
      path := slugLower (truncatedTitle ++ "-" ++ pathToken),
      metadata :=
        { book_uuid := book.metadata.uuid,
          comments := highlight.comments,
          location :=
            if highlight.location.truthy then some highlight.location.toJsString
            else none,
          source := highlight.source,
          highlighted_on := none,
          highlight_by := none } }
  let withDate :=
    if strTruthy highlight.date then
      match normalizeDate (highlight.date.getD "") with
      | some iso =>
          { base with metadata := { base.metadata with highlighted_on := some iso } }
      | none => base
    else base
  if strTruthy highlight.user then
    { withDate with
      metadata := { withDate.metadata with highlight_by := highlight.user } }
  else withDate

/-- The log lines `createHighlight` emits while building the document: the
invalid-date warning (parser.js line 127) when a truthy date string fails to
parse. -/
def dateLog (highlight : Highlight) : List LogEvent :=
  if strTruthy highlight.date then
    match normalizeDate (highlight.date.getD "") with
    | some _ => []
    | none => [.invalidDate (highlight.date.getD "")]
  else []

/-- Source `createHighlight` (parser.js lines 105-140): build the document (drawing a
fresh uuid for the path token), POST it, then push the created record into the
highlight cache. -/
def createHighlight (highlight : Highlight) (book : BookRec) : M Unit := do
  let pathToken ← freshUuid
  let params := highlightParams highlight book pathToken
  logEvents (dateLog highlight)
  let created ← remoteCreateHighlight params
  pushCacheHighlight created

/-- The `async.eachSeries` loop inside `createHighlights` (parser.js lines
94-100): write the surviving candidates strictly one at a time, in order; a
failed create stops the series (its callback is never invoked, so no later
candidate is attempted). -/
def writeAll (highlights : List Highlight) (book : BookRec) : M Unit :=
  match highlights with
  | [] => pure ()
  | h :: rest => do
      createHighlight h book
      writeAll rest book

/-- Source `createHighlights` (parser.js lines 84-103): read the (cached) highlight
listing, filter out existing highlights, and write the survivors sequentially;
an empty surviving list resolves immediately. -/
def createHighlights (highlights : List Highlight) (book : BookRec) : M Unit := do
  let existing ← getHighlights
  let filteredHighlights := filterOutExistingHighlights book highlights existing
  if filteredHighlights.isEmpty then pure ()
  else writeAll filteredHighlights book

/-- Source `getBooks` (parser.js lines 142-152): memoized full listing of the books
collection. -/
def getBooks : M (List BookRec) := fun w =>
  match w.cacheBooks with
  | some bs => .ok bs w
  | none =>
    match remoteListBooks w with
    | .ok bs w' => .ok bs { w' with cacheBooks := some bs }
    | .err w' => .err w'

/-- The document `createBook` builds (parser.js lines 174-177): the candidate
metadata merged with `original_title := params.title` and the creation
timestamp. -/
def bookRecord (params : BookParams) (now : String) : BookRec :=
  { title := params.title,
    metadata :=
      { author := params.metadata.author,
        asin := params.metadata.asin,
        uuid := params.metadata.uuid,
        original_title := params.title,
        date := now } }

/-- Source `createBook` (parser.js lines 173-187): POST the merged document, push it
into the book cache, return it. -/
def createBook (params : BookParams) : M BookRec := do
  let now ← currentTime
  let book := bookRecord params now
  let created ← remoteCreateBook book
  pushCacheBook created
  pure created

/-- Source `getBook` (parser.js lines 154-171): find the first existing book whose
`metadata.original_title` equals the candidate's title (lodash `findWhere`,
exact string comparison); return it as-is if found, create the book otherwise. -/
def getBook (bookParams : BookParams) : M BookRec := do
  let books ← getBooks
  match books.find? (fun b => b.metadata.original_title == bookParams.title) with
  | some existingBook => pure existingBook
  | none => createBook bookParams

/-- Source `addBookAndHighlights` (parser.js lines 29-45): skip entirely when the
tuple's highlight list is empty; otherwise resolve the book (with a freshly
generated correlation uuid in the candidate metadata) and create the
highlights against the resolved record. -/
def addBookAndHighlights (book : InputBook) (highlights : List Highlight) : M Unit :=
  if highlights.isEmpty then pure ()
  else do
    let u ← freshUuid
    let resolved ← getBook
      { title := book.title,
        metadata := { author := book.author, asin := book.asin, uuid := u } }
    createHighlights highlights resolved

/-- The tuple-processing loop of `parse` (parser.js lines 208-215): one tuple
at a time via `async.eachSeries`; a failed tuple stops the series.  The three
format parsers that produce the tuple list are external collaborators (spec
section 6) and are not modelled. -/
def parse (results : List ParsedTuple) : M Unit :=
  match results with
  | [] => pure ()
  | r :: rest => do
      addBookAndHighlights r.book r.highlights
      parse rest

/-! ## Definitions used by the verification -/

/-- Some record in `rh` belongs to `book` and has the same trimmed body as the
candidate's trimmed content: the condition under which the deduplicator drops
the candidate. -/
def covers (book : BookRec) (rh : List HighlightRec) (c : Highlight) : Prop :=
  ∃ r, r ∈ rh ∧ r.metadata.book_uuid = book.metadata.uuid ∧
    jsTrim r.body = jsTrim c.content

/-- The world a fresh process run starts from: given remote collections, both
caches `null`, no calls issued yet, empty trace and log. -/
def freshWorld (rb : List BookRec) (rh : List HighlightRec) (sched : Nat → Bool)
    (uuids : Nat → String) (now : String) : World :=
  { remoteBooks := rb, remoteHighlights := rh, cacheBooks := none,
    cacheHighlights := none, trace := [], nCalls := 0, schedule := sched,
    uuidOf := uuids, nUuids := 0, log := [], now := now }

/-- A fresh world with a fixed uuid stream and clock, for concrete runs. -/
def mkWorld (rb : List BookRec) (rh : List HighlightRec) (sched : Nat → Bool) : World :=
  freshWorld rb rh sched (fun n => "uuid-" ++ toString n) "2020-01-01T00:00:00-05:00"

/-! ### Concrete fixtures for witness runs -/

/-- A resolved remote book record. -/
def bookA : BookRec :=
  { title := "Book A",
    metadata := { author := some "Ann Author", asin := none, uuid := "uuid-a",
                  original_title := "Book A", date := "t0" } }

/-- A cached highlight record belonging to a different book. -/
def recOtherBook : HighlightRec :=
  { body := "Same quote.", title := "Book B: Same quote.", path := "book-b-same",
    metadata := { book_uuid := "uuid-other" } }

/-- A world whose caches are already populated and whose remote store accepts
every call. -/
def okCachedWorld : World :=
  { mkWorld [bookA] [] (fun _ => true) with
    cacheBooks := some [bookA], cacheHighlights := some [] }

/-- A world whose caches are already populated and whose remote store rejects
every call. -/
def failCachedWorld : World :=
  { mkWorld [bookA] [] (fun _ => false) with
    cacheBooks := some [bookA], cacheHighlights := some [] }

/-- A fresh world whose remote store rejects every call. -/
def failWorld : World := mkWorld [] [] (fun _ => false)

def c1Book : InputBook := { title := "Book A", author := some "Ann Author" }

def c1Highlights : List Highlight :=
  [{ content := "Same quote." }, { content := "  Two  " }]

def c1World : World := mkWorld [] [] (fun _ => true)

/-- The world left by a first, fully successful synchronization of `c1Book`. -/
def c1World1 : World := (addBookAndHighlights c1Book c1Highlights c1World).world

/-- The world left by a highlight create that the remote store rejected. -/
def c2FailWorld : World := (createHighlight { content := "one" } bookA failCachedWorld).world

/-- An existing remote book whose display title was corrected upstream: its
`original_title` still reads `Book A`. -/
def c4Old : BookRec :=
  { title := "New Title",
    metadata := { author := some "Ann Author", asin := none, uuid := "uuid-old",
                  original_title := "Book A", date := "t0" } }

def c4World : World :=
  { mkWorld [c4Old] [] (fun _ => true) with cacheBooks := some [c4Old] }

def c6T1 : ParsedTuple :=
  { book := { title := "Book A" }, highlights := [{ content := "one" }] }

def c6T2 : ParsedTuple :=
  { book := { title := "Book B" }, highlights := [{ content := "two" }] }

/-- The world left by the first tuple's failed processing. -/
def c6FailWorld : World := (addBookAndHighlights c6T1.book c6T1.highlights failWorld).world

/-! ## Step equations for the engine's operations -/

theorem getBooks_cached {w : World} {bs : List BookRec} (h : w.cacheBooks = some bs) :
    getBooks w = .ok bs w := by
  simp [getBooks, h]

theorem getBooks_uncached_ok {w : World} (h1 : w.cacheBooks = none)
    (h2 : w.schedule w.nCalls = true) :
    getBooks w = .ok w.remoteBooks
      { w with trace := w.trace ++ [.listBooks], nCalls := w.nCalls + 1,
               cacheBooks := some w.remoteBooks } := by
  simp [getBooks, remoteListBooks, issue, h1, h2]

theorem getBooks_uncached_err {w : World} (h1 : w.cacheBooks = none)
    (h2 : w.schedule w.nCalls = false) :
    getBooks w = .err { w with trace := w.trace ++ [.listBooks], nCalls := w.nCalls + 1 } := by
  simp [getBooks, remoteListBooks, issue, h1, h2]

theorem getHighlights_cached {w : World} {hs : List HighlightRec}
    (h : w.cacheHighlights = some hs) :
    getHighlights w = .ok hs w := by
  simp [getHighlights, h]

theorem getHighlights_uncached_ok {w : World} (h1 : w.cacheHighlights = none)
    (h2 : w.schedule w.nCalls = true) :
    getHighlights w = .ok w.remoteHighlights
      { w with trace := w.trace ++ [.listHighlights], nCalls := w.nCalls + 1,
               cacheHighlights := some w.remoteHighlights } := by
  simp [getHighlights, remoteListHighlights, issue, h1, h2]

theorem getHighlights_uncached_err {w : World} (h1 : w.cacheHighlights = none)
    (h2 : w.schedule w.nCalls = false) :
    getHighlights w = .err { w with trace := w.trace ++ [.listHighlights],
                                    nCalls := w.nCalls + 1 } := by
  simp [getHighlights, remoteListHighlights, issue, h1, h2]

theorem createBook_ok {params : BookParams} {w : World}
    (h : w.schedule w.nCalls = true) :
    createBook params w = .ok (bookRecord params w.now)
      { w with trace := w.trace ++ [.createBookCall (bookRecord params w.now)],
               nCalls := w.nCalls + 1,
               remoteBooks := w.remoteBooks ++ [bookRecord params w.now],
               cacheBooks := w.cacheBooks.map (fun l => l ++ [bookRecord params w.now]) } := by
  simp [createBook, currentTime, remoteCreateBook, pushCacheBook, issue, h]

theorem createBook_err {params : BookParams} {w : World}
    (h : w.schedule w.nCalls = false) :
    createBook params w = .err
      { w with trace := w.trace ++ [.createBookCall (bookRecord params w.now)],
               nCalls := w.nCalls + 1 } := by
  simp [createBook, currentTime, remoteCreateBook, issue, h]

theorem createHighlight_ok {hl : Highlight} {book : BookRec} {w : World}
    (h : w.schedule w.nCalls = true) :
    createHighlight hl book w = .ok ()
      { w with nUuids := w.nUuids + 1,
               log := w.log ++ dateLog hl,
               trace := w.trace ++
                 [.createHighlightCall (highlightParams hl book (w.uuidOf w.nUuids))],
               nCalls := w.nCalls + 1,
               remoteHighlights := w.remoteHighlights ++
                 [highlightParams hl book (w.uuidOf w.nUuids)],
               cacheHighlights := w.cacheHighlights.map
                 (fun l => l ++ [highlightParams hl book (w.uuidOf w.nUuids)]) } := by
  simp [createHighlight, freshUuid, logEvents, remoteCreateHighlight,
    pushCacheHighlight, issue, h]

theorem createHighlight_err {hl : Highlight} {book : BookRec} {w : World}
    (h : w.schedule w.nCalls = false) :
    createHighlight hl book w = .err
      { w with nUuids := w.nUuids + 1,
               log := w.log ++ dateLog hl,
               trace := w.trace ++
                 [.createHighlightCall (highlightParams hl book (w.uuidOf w.nUuids))],
               nCalls := w.nCalls + 1 } := by
  simp [createHighlight, freshUuid, logEvents, remoteCreateHighlight, issue, h]

theorem writeAll_nil {book : BookRec} {w : World} : writeAll [] book w = .ok () w := rfl

theorem writeAll_cons {h : Highlight} {rest : List Highlight} {book : BookRec} {w : World} :
    writeAll (h :: rest) book w =
      match createHighlight h book w with
      | .ok _ w' => writeAll rest book w'
      | .err w' => .err w' := by
  have h1 : writeAll (h :: rest) book = createHighlight h book >>= fun _ => writeAll rest book :=
    rfl
  rw [h1, M.bind_apply]
  cases createHighlight h book w <;> rfl

/-! ## Characterization of the deduplicator -/

/-- The four branches of `filterOutExistingHighlights` collapse to a single
filter: a candidate is kept exactly when no existing record of the resolved
book has the same trimmed body. -/
theorem filterOutExistingHighlights_eq (book : BookRec) (cands : List Highlight)
    (ex : List HighlightRec) :
    filterOutExistingHighlights book cands ex =
      cands.filter (fun c =>
        !(ex.any (fun r => r.metadata.book_uuid == book.metadata.uuid &&
            jsTrim r.body == jsTrim c.content))) := by
  unfold filterOutExistingHighlights
  by_cases hex : ex.isEmpty = true
  · rw [if_pos hex]
    rw [List.isEmpty_iff] at hex
    subst hex
    simp
  · rw [if_neg hex]
    by_cases hsb :
        (ex.filter (fun h => h.metadata.book_uuid == book.metadata.uuid)).isEmpty = true
    · rw [if_neg (by simp [hsb])]
      rw [List.isEmpty_iff, List.filter_eq_nil_iff] at hsb
      have hall : ∀ c : Highlight,
          (ex.any (fun r => r.metadata.book_uuid == book.metadata.uuid &&
            jsTrim r.body == jsTrim c.content)) = false := by
        intro c
        rw [Bool.eq_false_iff]
        intro hany
        rw [List.any_eq_true] at hany
        obtain ⟨r, hr, hp⟩ := hany
        rw [Bool.and_eq_true] at hp
        exact hsb r hr hp.1
      conv_rhs => rw [List.filter_congr (fun c _ => by rw [hall c, Bool.not_false])]
      simp
    · rw [if_pos (by simp [hsb])]
      refine List.filter_congr ?_
      intro c _
      congr 1
      rw [Bool.eq_iff_iff]
      simp only [List.contains_iff_exists_mem_beq, List.mem_map, List.mem_filter,
        List.any_eq_true, Bool.and_eq_true, beq_iff_eq]
      constructor
      · rintro ⟨b, ⟨r, ⟨hrex, hruuid⟩, rfl⟩, heq⟩
        exact ⟨r, hrex, hruuid, heq.symm⟩
      · rintro ⟨r, hrex, hruuid, heq⟩
        exact ⟨jsTrim r.body, ⟨r, ⟨hrex, hruuid⟩, rfl⟩, heq.symm⟩

/-! ## Unfolding equations for the composite operations -/

theorem createHighlights_eq {hs : List Highlight} {book : BookRec} {w : World} :
    createHighlights hs book w =
      match getHighlights w with
      | .ok existing w1 =>
          if (filterOutExistingHighlights book hs existing).isEmpty then .ok () w1
          else writeAll (filterOutExistingHighlights book hs existing) book w1
      | .err w1 => .err w1 := by
  have h1 : createHighlights hs book = getHighlights >>= fun existing =>
      if (filterOutExistingHighlights book hs existing).isEmpty then pure ()
      else writeAll (filterOutExistingHighlights book hs existing) book := rfl
  rw [h1, M.bind_apply]
  cases getHighlights w with
  | ok existing w1 =>
    by_cases hf : (filterOutExistingHighlights book hs existing).isEmpty = true
    · simp only [hf, if_true, M.pure_apply]
    · simp only [hf, if_false, Bool.false_eq_true]
  | err w1 => rfl

theorem getBook_eq {params : BookParams} {w : World} :
    getBook params w =
      match getBooks w with
      | .ok books w1 =>
          match books.find? (fun b => b.metadata.original_title == params.title) with
          | some existingBook => .ok existingBook w1
          | none => createBook params w1
      | .err w1 => .err w1 := by
  have h1 : getBook params = getBooks >>= fun books =>
      match books.find? (fun b => b.metadata.original_title == params.title) with
      | some existingBook => pure existingBook
      | none => createBook params := rfl
  rw [h1, M.bind_apply]
  cases getBooks w with
  | ok books w1 =>
    rcases hfind : books.find? (fun b => b.metadata.original_title == params.title) with _ | B <;>
      simp [hfind]
  | err w1 => rfl

theorem addBookAndHighlights_cons {b : InputBook} {h : Highlight} {t : List Highlight}
    {w : World} :
    addBookAndHighlights b (h :: t) w =
      match getBook
          { title := b.title,
            metadata := { author := b.author, asin := b.asin, uuid := w.uuidOf w.nUuids } }
          { w with nUuids := w.nUuids + 1 } with
      | .ok resolved w1 => createHighlights (h :: t) resolved w1
      | .err w1 => .err w1 := by
  have h1 : addBookAndHighlights b (h :: t) = freshUuid >>= fun u =>
      (getBook { title := b.title, metadata := { author := b.author, asin := b.asin, uuid := u } }
        >>= fun resolved => createHighlights (h :: t) resolved) := rfl
  rw [h1, M.bind_apply]
  simp only [freshUuid, M.bind_apply]
  cases getBook
      { title := b.title,
        metadata := { author := b.author, asin := b.asin, uuid := w.uuidOf w.nUuids } }
      { w with nUuids := w.nUuids + 1 } <;> rfl

theorem parse_cons {r : ParsedTuple} {rest : List ParsedTuple} {w : World} :
    parse (r :: rest) w =
      match addBookAndHighlights r.book r.highlights w with
      | .ok _ w1 => parse rest w1
      | .err w1 => .err w1 := by
  have h1 : parse (r :: rest) =
      addBookAndHighlights r.book r.highlights >>= fun _ => parse rest := rfl
  rw [h1, M.bind_apply]
  cases addBookAndHighlights r.book r.highlights w <;> rfl

/-! ## Inversion lemmas -/

theorem getBooks_ok_inv {w w' : World} {bs : List BookRec} (h : getBooks w = .ok bs w') :
    (w.cacheBooks = some bs ∧ w' = w) ∨
    (w.cacheBooks = none ∧ w.schedule w.nCalls = true ∧ bs = w.remoteBooks ∧
      w' = { w with trace := w.trace ++ [.listBooks],
                    nCalls := w.nCalls + 1,
                    cacheBooks := some w.remoteBooks }) := by
  cases hc : w.cacheBooks with
  | some l =>
    rw [getBooks_cached hc] at h
    cases h
    exact Or.inl ⟨rfl, rfl⟩
  | none =>
    cases hsch : w.schedule w.nCalls with
    | true =>
      rw [getBooks_uncached_ok hc hsch] at h
      cases h
      exact Or.inr ⟨rfl, rfl, rfl, rfl⟩
    | false =>
      rw [getBooks_uncached_err hc hsch] at h
      cases h

theorem getHighlights_ok_inv {w w' : World} {hs : List HighlightRec}
    (h : getHighlights w = .ok hs w') :
    (w.cacheHighlights = some hs ∧ w' = w) ∨
    (w.cacheHighlights = none ∧ w.schedule w.nCalls = true ∧ hs = w.remoteHighlights ∧
      w' = { w with trace := w.trace ++ [.listHighlights],
                    nCalls := w.nCalls + 1,
                    cacheHighlights := some w.remoteHighlights }) := by
  cases hc : w.cacheHighlights with
  | some l =>
    rw [getHighlights_cached hc] at h
    cases h
    exact Or.inl ⟨rfl, rfl⟩
  | none =>
    cases hsch : w.schedule w.nCalls with
    | true =>
      rw [getHighlights_uncached_ok hc hsch] at h
      cases h
      exact Or.inr ⟨rfl, rfl, rfl, rfl⟩
    | false =>
      rw [getHighlights_uncached_err hc hsch] at h
      cases h

theorem createBook_ok_inv {params : BookParams} {w w' : World} {B : BookRec}
    (h : createBook params w = .ok B w') :
    w.schedule w.nCalls = true ∧ B = bookRecord params w.now ∧
    w' = { w with trace := w.trace ++ [.createBookCall (bookRecord params w.now)],
                  nCalls := w.nCalls + 1,
                  remoteBooks := w.remoteBooks ++ [bookRecord params w.now],
                  cacheBooks := w.cacheBooks.map
                    (fun l => l ++ [bookRecord params w.now]) } := by
  cases hsch : w.schedule w.nCalls with
  | true =>
    rw [createBook_ok hsch] at h
    cases h
    exact ⟨rfl, rfl, rfl⟩
  | false =>
    rw [createBook_err hsch] at h
    cases h

theorem createHighlight_ok_inv {hl : Highlight} {book : BookRec} {w w' : World}
    (h : createHighlight hl book w = .ok () w') :
    w.schedule w.nCalls = true ∧
    w' = { w with nUuids := w.nUuids + 1,
                  log := w.log ++ dateLog hl,
                  trace := w.trace ++
                    [.createHighlightCall (highlightParams hl book (w.uuidOf w.nUuids))],
                  nCalls := w.nCalls + 1,
                  remoteHighlights := w.remoteHighlights ++
                    [highlightParams hl book (w.uuidOf w.nUuids)],
                  cacheHighlights := w.cacheHighlights.map
                    (fun l => l ++ [highlightParams hl book (w.uuidOf w.nUuids)]) } := by
  cases hsch : w.schedule w.nCalls with
  | true =>
    rw [createHighlight_ok hsch] at h
    cases h
    exact ⟨rfl, rfl⟩
  | false =>
    rw [createHighlight_err hsch] at h
    cases h

theorem countCreates_append (a b : List RemoteCall) :
    countCreates (a ++ b) = countCreates a + countCreates b := by
  simp [countCreates, List.filter_append]

/-! ## Projections of the built highlight document -/

theorem highlightParams_body (hl : Highlight) (book : BookRec) (token : String) :
    (highlightParams hl book token).body = hl.content := by
  simp only [highlightParams]
  split <;> split <;> try split
  all_goals rfl

theorem highlightParams_book_uuid (hl : Highlight) (book : BookRec) (token : String) :
    (highlightParams hl book token).metadata.book_uuid = book.metadata.uuid := by
  simp only [highlightParams]
  split <;> split <;> try split
  all_goals rfl

theorem highlightParams_highlighted_on (hl : Highlight) (book : BookRec) (token : String) :
    (highlightParams hl book token).metadata.highlighted_on =
      (if strTruthy hl.date then normalizeDate (hl.date.getD "") else none) := by
  simp only [highlightParams]
  split <;> split <;> try split
  all_goals simp [*]

theorem highlightParams_location (hl : Highlight) (book : BookRec) (token : String) :
    (highlightParams hl book token).metadata.location =
      (if hl.location.truthy then some hl.location.toJsString else none) := by
  simp only [highlightParams]
  split <;> split <;> try split
  all_goals rfl

/-! ## Facts about successful runs -/

theorem writeAll_ok_facts {cands : List Highlight} {book : BookRec} {w w' : World}
    (h : writeAll cands book w = .ok () w') :
    (∃ recs, w'.remoteHighlights = w.remoteHighlights ++ recs) ∧
    w'.remoteBooks = w.remoteBooks ∧
    ∀ c ∈ cands, ∃ r, r ∈ w'.remoteHighlights ∧ r.body = c.content ∧
      r.metadata.book_uuid = book.metadata.uuid := by
  induction cands generalizing w with
  | nil =>
    rw [writeAll_nil] at h
    cases h
    exact ⟨⟨[], by simp⟩, rfl, by simp⟩
  | cons c rest ih =>
    rw [writeAll_cons] at h
    cases hc : createHighlight c book w with
    | err w1 =>
      simp only [hc] at h
      cases h
    | ok a w1 =>
      cases a
      simp only [hc] at h
      obtain ⟨hsch, hw1⟩ := createHighlight_ok_inv hc
      obtain ⟨⟨recs, hrecs⟩, hbooks, hmem⟩ := ih h
      subst hw1
      refine ⟨⟨highlightParams c book (w.uuidOf w.nUuids) :: recs, by
        simpa [List.append_assoc] using hrecs⟩, hbooks, ?_⟩
      intro x hx
      rcases List.mem_cons.mp hx with hx1 | hx2
      · subst hx1
        refine ⟨highlightParams x book (w.uuidOf w.nUuids), ?_,
          highlightParams_body x book _, highlightParams_book_uuid x book _⟩
        rw [hrecs]
        simp
      · exact hmem x hx2

theorem createHighlights_ok_facts {hs : List Highlight} {book : BookRec} {w w' : World}
    (hch : w.cacheHighlights = none)
    (h : createHighlights hs book w = .ok () w') :
    w'.remoteBooks = w.remoteBooks ∧
    (∃ recs, w'.remoteHighlights = w.remoteHighlights ++ recs) ∧
    ∀ c ∈ hs, covers book w'.remoteHighlights c := by
  cases hsch : w.schedule w.nCalls with
  | false =>
    simp only [createHighlights_eq, getHighlights_uncached_err hch hsch] at h
    cases h
  | true =>
    simp only [createHighlights_eq, getHighlights_uncached_ok hch hsch] at h
    by_cases hf : (filterOutExistingHighlights book hs w.remoteHighlights).isEmpty = true
    · rw [if_pos hf] at h
      cases h
      rw [List.isEmpty_iff, filterOutExistingHighlights_eq, List.filter_eq_nil_iff] at hf
      refine ⟨rfl, ⟨[], by simp⟩, ?_⟩
      intro c hc
      have hany := hf c hc
      rw [Bool.not_eq_true, Bool.not_eq_false'] at hany
      rw [List.any_eq_true] at hany
      obtain ⟨r, hr, hp⟩ := hany
      rw [Bool.and_eq_true, beq_iff_eq, beq_iff_eq] at hp
      exact ⟨r, hr, hp.1, hp.2⟩
    · rw [if_neg hf] at h
      obtain ⟨⟨recs, hrecs⟩, hbooks, hmem⟩ := writeAll_ok_facts h
      refine ⟨hbooks, ⟨recs, hrecs⟩, ?_⟩
      intro c hc
      by_cases hcf : c ∈ filterOutExistingHighlights book hs w.remoteHighlights
      · obtain ⟨r, hrmem, hbody, huuid⟩ := hmem c hcf
        exact ⟨r, hrmem, huuid, by rw [hbody]⟩
      · rw [filterOutExistingHighlights_eq, List.mem_filter] at hcf
        push_neg at hcf
        have hany := hcf hc
        simp only [ne_eq, Bool.not_eq_true, Bool.not_eq_false', List.any_eq_true] at hany
        obtain ⟨r, hr, hp⟩ := hany
        rw [Bool.and_eq_true, beq_iff_eq, beq_iff_eq] at hp
        refine ⟨r, ?_, hp.1, hp.2⟩
        rw [hrecs]
        exact List.mem_append_left _ hr

theorem getBook_ok_facts {params : BookParams} {w w' : World} {B : BookRec}
    (hcb : w.cacheBooks = none)
    (h : getBook params w = .ok B w') :
    w'.remoteBooks.find? (fun bk => bk.metadata.original_title == params.title) = some B ∧
    w'.cacheHighlights = w.cacheHighlights ∧
    w'.remoteHighlights = w.remoteHighlights := by
  cases hsch : w.schedule w.nCalls with
  | false =>
    simp only [getBook_eq, getBooks_uncached_err hcb hsch] at h
    cases h
  | true =>
    simp only [getBook_eq, getBooks_uncached_ok hcb hsch] at h
    cases hfind : w.remoteBooks.find?
        (fun bk => bk.metadata.original_title == params.title) with
    | some B0 =>
      simp only [hfind] at h
      cases h
      exact ⟨hfind, rfl, rfl⟩
    | none =>
      simp only [hfind] at h
      obtain ⟨hsch2, hB, hw'⟩ := createBook_ok_inv h
      subst hB
      subst hw'
      refine ⟨?_, rfl, rfl⟩
      rw [List.find?_append, hfind]
      simp [bookRecord]

theorem addBook_ok_facts {b : InputBook} {hs : List Highlight} {w w' : World}
    (hcb : w.cacheBooks = none) (hch : w.cacheHighlights = none) (hne : hs ≠ [])
    (h : addBookAndHighlights b hs w = .ok () w') :
    ∃ B, w'.remoteBooks.find? (fun bk => bk.metadata.original_title == b.title) = some B ∧
      ∀ c ∈ hs, covers B w'.remoteHighlights c := by
  cases hs with
  | nil => exact absurd rfl hne
  | cons c t =>
    rw [addBookAndHighlights_cons] at h
    cases hgb : getBook
        { title := b.title,
          metadata := { author := b.author, asin := b.asin, uuid := w.uuidOf w.nUuids } }
        { w with nUuids := w.nUuids + 1 } with
    | err w1 =>
      simp only [hgb] at h
      cases h
    | ok B w1 =>
      simp only [hgb] at h
      have hcb' : ({ w with nUuids := w.nUuids + 1 } : World).cacheBooks = none := hcb
      obtain ⟨hfind, hch1, hrh1⟩ := getBook_ok_facts hcb' hgb
      have hch1' : w1.cacheHighlights = none := by rw [hch1]; exact hch
      obtain ⟨hbooks, _, hcov⟩ := createHighlights_ok_facts hch1' h
      exact ⟨B, by rw [hbooks]; exact hfind, hcov⟩

/-- Forward execution of a re-submission: if the remote store already resolves
the book and covers every candidate, a fresh run with a fully available remote
store finds the book, filters every candidate out, and issues no create call. -/
theorem secondRun {b : InputBook} {hs : List Highlight} {B : BookRec} {w : World}
    (hsched : ∀ n, w.schedule n = true)
    (hcb : w.cacheBooks = none) (hch : w.cacheHighlights = none)
    (hfind : w.remoteBooks.find? (fun bk => bk.metadata.original_title == b.title) = some B)
    (hcov : ∀ c ∈ hs, covers B w.remoteHighlights c) :
    ∃ w', addBookAndHighlights b hs w = .ok () w' ∧
      w'.remoteBooks = w.remoteBooks ∧ w'.remoteHighlights = w.remoteHighlights ∧
      countCreates w'.trace = countCreates w.trace := by
  cases hs with
  | nil => exact ⟨w, rfl, rfl, rfl, rfl⟩
  | cons c t =>
    have hfilt : filterOutExistingHighlights B (c :: t) w.remoteHighlights = [] := by
      rw [filterOutExistingHighlights_eq, List.filter_eq_nil_iff]
      intro a ha
      obtain ⟨r, hr, huuid, htrim⟩ := hcov a ha
      rw [Bool.not_eq_true, Bool.not_eq_false', List.any_eq_true]
      exact ⟨r, hr, by rw [Bool.and_eq_true, beq_iff_eq, beq_iff_eq]; exact ⟨huuid, htrim⟩⟩
    have hcb' : ({ w with nUuids := w.nUuids + 1 } : World).cacheBooks = none := hcb
    have hgbooks : getBooks { w with nUuids := w.nUuids + 1 } =
        .ok w.remoteBooks
          { w with
            nUuids := w.nUuids + 1,
            trace := w.trace ++ [.listBooks],
            nCalls := w.nCalls + 1,
            cacheBooks := some w.remoteBooks } := by
      rw [getBooks_uncached_ok hcb' (hsched _)]
    have hch' : ({ w with
        nUuids := w.nUuids + 1,
        trace := w.trace ++ [.listBooks],
        nCalls := w.nCalls + 1,
        cacheBooks := some w.remoteBooks } : World).cacheHighlights = none := hch
    have hghl : getHighlights
        { w with
          nUuids := w.nUuids + 1,
          trace := w.trace ++ [.listBooks],
          nCalls := w.nCalls + 1,
          cacheBooks := some w.remoteBooks } =
        .ok w.remoteHighlights
          { w with
            nUuids := w.nUuids + 1,
            trace := (w.trace ++ [.listBooks]) ++ [.listHighlights],
            nCalls := w.nCalls + 1 + 1,
            cacheBooks := some w.remoteBooks,
            cacheHighlights := some w.remoteHighlights } := by
      rw [getHighlights_uncached_ok hch' (hsched _)]
    simp only [addBookAndHighlights_cons, getBook_eq, hgbooks, hfind, createHighlights_eq,
      hghl, hfilt, List.isEmpty_nil, if_true]
    refine ⟨_, rfl, rfl, rfl, ?_⟩
    simp [countCreates_append, countCreates, RemoteCall.isCreate]

theorem writeAll_append {cands1 cands2 : List Highlight} {book : BookRec} {w : World} :
    writeAll (cands1 ++ cands2) book w =
      match writeAll cands1 book w with
      | .ok _ w1 => writeAll cands2 book w1
      | .err w1 => .err w1 := by
  induction cands1 generalizing w with
  | nil =>
    rw [List.nil_append]
    have h0 : writeAll [] book w = .ok () w := rfl
    simp only [h0]
  | cons p rest ih =>
    rw [List.cons_append, writeAll_cons, writeAll_cons]
    cases createHighlight p book w with
    | ok a w1 => exact ih
    | err w1 => rfl

theorem parse_append {ts1 ts2 : List ParsedTuple} {w : World} :
    parse (ts1 ++ ts2) w =
      match parse ts1 w with
      | .ok _ w1 => parse ts2 w1
      | .err w1 => .err w1 := by
  induction ts1 generalizing w with
  | nil =>
    rw [List.nil_append]
    have h0 : parse [] w = .ok () w := rfl
    simp only [h0]
  | cons r rest ih =>
    rw [List.cons_append, parse_cons, parse_cons]
    cases addBookAndHighlights r.book r.highlights w with
    | ok a w1 => exact ih
    | err w1 => rfl

/-! ## The claims -/

/-- Claim C1: for every tuple `(book, highlights)` synchronized successfully in
one run (fresh caches, any failure schedule), submitting the same tuple again
in a second run against the remote state left by the first run (fresh caches
again, remote store available) succeeds and creates zero new highlight records
and zero new book records: the remote collections are unchanged and the second
run's trace contains no create call. -/
theorem claim_C1_resubmission_creates_nothing
    (b : InputBook) (hs : List Highlight) (w0 w1 : World)
    (sched2 : Nat → Bool) (uuids2 : Nat → String) (now2 : String)
    (hcb : w0.cacheBooks = none) (hch : w0.cacheHighlights = none)
    (hrun1 : addBookAndHighlights b hs w0 = .ok () w1)
    (hsched2 : ∀ n, sched2 n = true) :
    ∃ w2, addBookAndHighlights b hs
        (freshWorld w1.remoteBooks w1.remoteHighlights sched2 uuids2 now2) = .ok () w2 ∧
      w2.remoteBooks = w1.remoteBooks ∧
      w2.remoteHighlights = w1.remoteHighlights ∧
      countCreates w2.trace = 0 := by
  cases hs with
  | nil => exact ⟨_, rfl, rfl, rfl, rfl⟩
  | cons c t =>
    obtain ⟨B, hfind, hcov⟩ := addBook_ok_facts hcb hch (List.cons_ne_nil c t) hrun1
    have hsched2' :
        ∀ n, (freshWorld w1.remoteBooks w1.remoteHighlights sched2 uuids2 now2).schedule n =
          true := hsched2
    have hcb2 :
        (freshWorld w1.remoteBooks w1.remoteHighlights sched2 uuids2 now2).cacheBooks =
          none := rfl
    have hch2 :
        (freshWorld w1.remoteBooks w1.remoteHighlights sched2 uuids2 now2).cacheHighlights =
          none := rfl
    have hfind2 :
        (freshWorld w1.remoteBooks w1.remoteHighlights sched2 uuids2 now2).remoteBooks.find?
          (fun bk => bk.metadata.original_title == b.title) = some B := hfind
    have hcov2 : ∀ x ∈ c :: t, covers B
        (freshWorld w1.remoteBooks w1.remoteHighlights sched2 uuids2 now2).remoteHighlights
        x := hcov
    obtain ⟨w2, h1, h2, h3, h4⟩ := secondRun hsched2' hcb2 hch2 hfind2 hcov2
    exact ⟨w2, h1, h2, h3, h4⟩

/-- Witness for C1: a concrete tuple with two highlights, synchronized from an
empty remote store; the first run is evaluated concretely and the theorem is
applied to it. -/
theorem claim_C1_witness :
    (addBookAndHighlights c1Book c1Highlights c1World = .ok () c1World1) ∧
    (∃ w2, addBookAndHighlights c1Book c1Highlights
        (freshWorld c1World1.remoteBooks c1World1.remoteHighlights
          (fun _ => true) (fun n => "x-" ++ toString n) "t2") = .ok () w2 ∧
      w2.remoteBooks = c1World1.remoteBooks ∧
      w2.remoteHighlights = c1World1.remoteHighlights ∧
      countCreates w2.trace = 0) := by
  have hrun : addBookAndHighlights c1Book c1Highlights c1World = .ok () c1World1 := by
    simp only [c1World1, c1World, c1Book, c1Highlights, mkWorld, freshWorld, Result.world,
      addBookAndHighlights, getBook, createHighlights, writeAll, M.bind_apply, M.pure_apply,
      freshUuid, List.isEmpty_cons, List.isEmpty_nil, Bool.false_eq_true, if_false, if_true,
      getBooks_uncached_ok, getHighlights_uncached_ok, createBook_ok, createHighlight_ok,
      filterOutExistingHighlights, List.find?_nil]
  exact ⟨hrun,
    claim_C1_resubmission_creates_nothing c1Book c1Highlights c1World c1World1
      (fun _ => true) (fun n => "x-" ++ toString n) "t2" rfl rfl hrun (fun _ => rfl)⟩

/-- Claim C3: deduplication compares candidates only against existing records
whose `metadata.book_uuid` equals the resolved book's `metadata.uuid` — the
result depends only on that scoped subset — so a candidate survives whenever no
record of the same book matches its trimmed text, even if a record of another
book carries the identical trimmed body. -/
theorem claim_C3_dedup_scoped_to_resolved_book :
    (∀ (book : BookRec) (cands : List Highlight) (ex ex' : List HighlightRec),
      ex.filter (fun r => r.metadata.book_uuid == book.metadata.uuid) =
        ex'.filter (fun r => r.metadata.book_uuid == book.metadata.uuid) →
      filterOutExistingHighlights book cands ex =
        filterOutExistingHighlights book cands ex') ∧
    (∀ (book : BookRec) (cands : List Highlight) (ex : List HighlightRec) (c : Highlight),
      c ∈ cands →
      (∀ r ∈ ex, r.metadata.book_uuid = book.metadata.uuid →
        jsTrim r.body ≠ jsTrim c.content) →
      c ∈ filterOutExistingHighlights book cands ex) := by
  constructor
  · intro book cands ex ex' hfeq
    rw [filterOutExistingHighlights_eq, filterOutExistingHighlights_eq]
    refine List.filter_congr ?_
    intro c _
    congr 1
    rw [← List.any_filter, ← List.any_filter, hfeq]
  · intro book cands ex c hc hno
    rw [filterOutExistingHighlights_eq, List.mem_filter]
    refine ⟨hc, ?_⟩
    have hfalse : (ex.any fun r => r.metadata.book_uuid == book.metadata.uuid &&
        jsTrim r.body == jsTrim c.content) = false := by
      rw [Bool.eq_false_iff]
      intro hany
      rw [List.any_eq_true] at hany
      obtain ⟨r, hr, hp⟩ := hany
      rw [Bool.and_eq_true, beq_iff_eq, beq_iff_eq] at hp
      exact hno r hr hp.1 hp.2
    rw [hfalse]
    rfl

/-- Witness for C3: the candidate `Same quote.` for `bookA` survives dedup even
though a record of a different book carries the identical body. -/
theorem claim_C3_witness :
    ({ content := "Same quote." } : Highlight) ∈
      filterOutExistingHighlights bookA [{ content := "Same quote." }] [recOtherBook] :=
  claim_C3_dedup_scoped_to_resolved_book.2 bookA
    [{ content := "Same quote." }] [recOtherBook] { content := "Same quote." }
    (by simp) (by decide)

/-- Claim C4: `getBook` returns the first existing book whose
`metadata.original_title` equals the candidate's title (exact string match)
as-is, leaving the world unchanged after the listing — no remote write, the
candidate's fresh uuid and display title are discarded; only when no such
record exists does it create the book remotely (with the candidate's
metadata, `original_title := title` and the clock reading). -/
theorem claim_C4_book_resolved_by_original_title (params : BookParams) (w wmid : World)
    (bs : List BookRec) (hlist : getBooks w = .ok bs wmid) :
    (∀ B, bs.find? (fun bk => bk.metadata.original_title == params.title) = some B →
      getBook params w = .ok B wmid) ∧
    (bs.find? (fun bk => bk.metadata.original_title == params.title) = none →
      getBook params w = createBook params wmid) ∧
    (bs.find? (fun bk => bk.metadata.original_title == params.title) = none →
      wmid.schedule wmid.nCalls = true →
      getBook params w = .ok (bookRecord params wmid.now)
        { wmid with
          trace := wmid.trace ++ [.createBookCall (bookRecord params wmid.now)],
          nCalls := wmid.nCalls + 1,
          remoteBooks := wmid.remoteBooks ++ [bookRecord params wmid.now],
          cacheBooks := wmid.cacheBooks.map
            (fun l => l ++ [bookRecord params wmid.now]) }) := by
  refine ⟨?_, ?_, ?_⟩
  · intro B hfind
    simp only [getBook_eq, hlist, hfind]
  · intro hfind
    simp only [getBook_eq, hlist, hfind]
  · intro hfind hsch
    simp only [getBook_eq, hlist, hfind]
    rw [createBook_ok hsch]

/-- Witness for C4: a candidate titled `Book A` with a fresh uuid resolves to
the existing record `c4Old` (whose display title differs) with no change of
world. -/
theorem claim_C4_witness :
    getBook { title := "Book A", metadata := { uuid := "uuid-new" } } c4World =
      .ok c4Old c4World :=
  (claim_C4_book_resolved_by_original_title
      { title := "Book A", metadata := { uuid := "uuid-new" } } c4World c4World [c4Old]
      (getBooks_cached rfl)).1 c4Old (by decide)

/-- Claim C5: the deduplicator removes a candidate exactly when its trimmed
content is string-equal to the trimmed body of some cached record of the same
book; anything short of exact equality after trimming is not a match, and the
surviving candidates keep their original order (the output is a `filter` of
the input). -/
theorem claim_C5_dedup_is_exact_trimmed_match (book : BookRec) (cands : List Highlight)
    (ex : List HighlightRec) :
    filterOutExistingHighlights book cands ex =
      cands.filter (fun c => !(ex.any (fun r =>
        r.metadata.book_uuid == book.metadata.uuid &&
          jsTrim r.body == jsTrim c.content))) :=
  filterOutExistingHighlights_eq book cands ex

/-- Claim C9: a tuple with an empty highlight list is skipped outright: the
run succeeds with the world untouched (no remote call recorded in the trace,
both caches unchanged), and at the driver level the tuple is a no-op. -/
theorem claim_C9_empty_tuple_is_noop (b : InputBook) (rest : List ParsedTuple) (w : World) :
    addBookAndHighlights b [] w = .ok () w ∧
    parse ({ book := b, highlights := [] } :: rest) w = parse rest w := by
  refine ⟨rfl, ?_⟩
  have h0 : addBookAndHighlights b [] w = .ok () w := rfl
  simp only [parse_cons, h0]

/-- Claim C2: a remote create failure for one candidate leaves the writer in
the failure state without attempting any remaining candidate of the batch
(the whole `writeAll` run equals the single failing step), the failure
propagates out of `createHighlights`, and a failed tuple makes the driver
return the failure, terminating the run. -/
theorem claim_C2_create_failure_aborts_and_propagates :
    (∀ (book : BookRec) (pre : List Highlight) (h : Highlight) (post : List Highlight)
        (w wmid wfail : World),
      writeAll pre book w = .ok () wmid →
      createHighlight h book wmid = .err wfail →
      writeAll (pre ++ h :: post) book w = .err wfail) ∧
    (∀ (hs : List Highlight) (book : BookRec) (w wmid wfail : World)
        (ex : List HighlightRec),
      getHighlights w = .ok ex wmid →
      writeAll (filterOutExistingHighlights book hs ex) book wmid = .err wfail →
      createHighlights hs book w = .err wfail) ∧
    (∀ (b : InputBook) (hs : List Highlight) (rest : List ParsedTuple) (w wfail : World),
      addBookAndHighlights b hs w = .err wfail →
      parse ({ book := b, highlights := hs } :: rest) w = .err wfail) := by
  refine ⟨?_, ?_, ?_⟩
  · intro book pre h post w wmid wfail hpre herr
    rw [writeAll_append]
    simp only [hpre, writeAll_cons, herr]
  · intro hs book w wmid wfail ex hget hw
    rw [createHighlights_eq]
    simp only [hget]
    have hne : ¬((filterOutExistingHighlights book hs ex).isEmpty = true) := by
      intro hemp
      rw [List.isEmpty_iff] at hemp
      rw [hemp, writeAll_nil] at hw
      cases hw
    rw [if_neg hne]
    exact hw
  · intro b hs rest w wfail herr
    simp only [parse_cons, herr]

/-- Witness for C2: with a remote store that rejects every call, the create of
the first candidate fails and the two-candidate batch ends in exactly that
failure state. -/
theorem claim_C2_witness :
    writeAll [{ content := "one" }, { content := "two" }] bookA failCachedWorld =
      .err c2FailWorld := by
  have herr : createHighlight { content := "one" } bookA failCachedWorld =
      .err c2FailWorld := by
    rw [createHighlight_err rfl]
    rfl
  exact claim_C2_create_failure_aborts_and_propagates.1 bookA []
    { content := "one" } [{ content := "two" }] failCachedWorld failCachedWorld
    c2FailWorld rfl herr

/-- Claim C6: tuples are processed strictly in order; if one tuple's processing
fails at any remote call, the whole run ends in exactly that failure state, so
no remote call of any kind is ever issued for any later tuple (the final world
is the one the failing tuple left behind). -/
theorem claim_C6_failure_halts_later_tuples (t : ParsedTuple) (ts1 ts2 : List ParsedTuple)
    (w wmid wfail : World)
    (hpre : parse ts1 w = .ok () wmid)
    (herr : addBookAndHighlights t.book t.highlights wmid = .err wfail) :
    parse (ts1 ++ t :: ts2) w = .err wfail := by
  rw [parse_append]
  simp only [hpre, parse_cons, herr]

/-- Witness for C6: with a remote store that rejects every call, the first
tuple fails at its very first remote read and the two-tuple run ends in that
failure state, with the second tuple never attempted. -/
theorem claim_C6_witness :
    parse [c6T1, c6T2] failWorld = .err c6FailWorld := by
  have herr : addBookAndHighlights c6T1.book c6T1.highlights failWorld =
      .err c6FailWorld := by
    simp only [c6FailWorld, Result.world, c6T1, failWorld, mkWorld, freshWorld,
      addBookAndHighlights, getBook, M.bind_apply, M.pure_apply, freshUuid,
      List.isEmpty_cons, Bool.false_eq_true, if_false, getBooks_uncached_err]
  exact claim_C6_failure_halts_later_tuples c6T1 [] [c6T2] failWorld failWorld
    c6FailWorld rfl herr

/-- Claim C7: a date string parsing under ISO-8601 or the literal format
`MMMM D, YYYY` is normalized to an ISO-8601 instant stored in
`metadata.highlighted_on` (`March 3, 2020` and `2020-03-03T00:00:00Z` yield
the same instant); an unparseable date string leaves the field absent, logs
the unparsed value, and the record is still created successfully. -/
theorem claim_C7_date_normalization :
    ((∃ iso, normalizeDate "March 3, 2020" = some iso ∧
        normalizeDate "2020-03-03T00:00:00Z" = some iso) ∧
      normalizeDate "not a date" = none) ∧
    (∀ (hl : Highlight) (book : BookRec) (w : World) (d iso : String),
      hl.date = some d → normalizeDate d = some iso → w.schedule w.nCalls = true →
      ∃ w' rec, createHighlight hl book w = .ok () w' ∧
        w'.remoteHighlights = w.remoteHighlights ++ [rec] ∧
        rec.metadata.highlighted_on = some iso) ∧
    (∀ (hl : Highlight) (book : BookRec) (w : World) (d : String),
      hl.date = some d → d ≠ "" → normalizeDate d = none → w.schedule w.nCalls = true →
      ∃ w' rec, createHighlight hl book w = .ok () w' ∧
        w'.remoteHighlights = w.remoteHighlights ++ [rec] ∧
        rec.metadata.highlighted_on = none ∧
        LogEvent.invalidDate d ∈ w'.log) := by
  refine ⟨⟨⟨"2020-03-03T00:00:00.000Z", by decide, by decide⟩, by decide⟩, ?_, ?_⟩
  · intro hl book w d iso hdate hnorm hsch
    refine ⟨_, highlightParams hl book (w.uuidOf w.nUuids),
      createHighlight_ok hsch, rfl, ?_⟩
    rw [highlightParams_highlighted_on]
    have hd : d ≠ "" := by
      intro he
      subst he
      rw [show normalizeDate "" = none from rfl] at hnorm
      cases hnorm
    simp only [hdate, strTruthy, Option.getD_some]
    rw [if_pos (by simpa using hd)]
    exact hnorm
  · intro hl book w d hdate hd hnorm hsch
    refine ⟨_, highlightParams hl book (w.uuidOf w.nUuids),
      createHighlight_ok hsch, rfl, ?_, ?_⟩
    · rw [highlightParams_highlighted_on]
      simp only [hdate, strTruthy, Option.getD_some]
      rw [if_pos (by simpa using hd), hnorm]
    · show LogEvent.invalidDate d ∈ w.log ++ dateLog hl
      have hlog : dateLog hl = [.invalidDate d] := by
        simp only [dateLog, hdate, strTruthy, Option.getD_some]
        rw [if_pos (by simpa using hd), hnorm]
      rw [hlog]
      exact List.mem_append_right _ (List.mem_singleton_self _)

/-- Witness for C7: creating a highlight dated `not a date` against an
available remote store succeeds, persists no `highlighted_on`, and logs the
unparsed value. -/
theorem claim_C7_witness :
    ∃ w' rec,
      createHighlight { content := "x", date := some "not a date" } bookA okCachedWorld =
        .ok () w' ∧
      w'.remoteHighlights = okCachedWorld.remoteHighlights ++ [rec] ∧
      rec.metadata.highlighted_on = none ∧
      LogEvent.invalidDate "not a date" ∈ w'.log :=
  claim_C7_date_normalization.2.2 { content := "x", date := some "not a date" }
    bookA okCachedWorld "not a date" rfl (by decide) (by decide) rfl

/-- Claim C8: each collection listing is memoized: with a populated cache the
listing returns the cached list and leaves the world untouched (no remote
call); with an empty cache it issues exactly one remote read and stores the
result; and any invocation after a successful one returns the same list
without touching the world again. -/
theorem claim_C8_listing_memoized :
    (∀ (w : World) (hs : List HighlightRec), w.cacheHighlights = some hs →
      getHighlights w = .ok hs w) ∧
    (∀ w : World, w.cacheHighlights = none → w.schedule w.nCalls = true →
      getHighlights w = .ok w.remoteHighlights
        { w with trace := w.trace ++ [.listHighlights],
                 nCalls := w.nCalls + 1,
                 cacheHighlights := some w.remoteHighlights }) ∧
    (∀ (w w' : World) (hs : List HighlightRec), getHighlights w = .ok hs w' →
      getHighlights w' = .ok hs w') ∧
    (∀ (w : World) (bs : List BookRec), w.cacheBooks = some bs →
      getBooks w = .ok bs w) ∧
    (∀ w : World, w.cacheBooks = none → w.schedule w.nCalls = true →
      getBooks w = .ok w.remoteBooks
        { w with trace := w.trace ++ [.listBooks],
                 nCalls := w.nCalls + 1,
                 cacheBooks := some w.remoteBooks }) ∧
    (∀ (w w' : World) (bs : List BookRec), getBooks w = .ok bs w' →
      getBooks w' = .ok bs w') := by
  refine ⟨fun w hs h => getHighlights_cached h,
    fun w h1 h2 => getHighlights_uncached_ok h1 h2, ?_,
    fun w bs h => getBooks_cached h,
    fun w h1 h2 => getBooks_uncached_ok h1 h2, ?_⟩
  · intro w w' hs h
    rcases getHighlights_ok_inv h with ⟨hc, hw⟩ | ⟨_, _, hhs, hw⟩
    · subst hw
      exact getHighlights_cached hc
    · subst hw
      subst hhs
      exact getHighlights_cached rfl
  · intro w w' bs h
    rcases getBooks_ok_inv h with ⟨hc, hw⟩ | ⟨_, _, hbs, hw⟩
    · subst hw
      exact getBooks_cached hc
    · subst hw
      subst hbs
      exact getBooks_cached rfl

/-- Witness for C8: a populated highlight cache is served as-is, with the
world unchanged. -/
theorem claim_C8_witness :
    getHighlights okCachedWorld = .ok [] okCachedWorld :=
  claim_C8_listing_memoized.1 okCachedWorld [] rfl

/-- Claim C10: the persisted record's `metadata.location` is `null` whenever
the candidate's location is absent or falsy (`undefined`, the number `0`, the
empty string), and the stringified value `String(location)` otherwise. -/
theorem claim_C10_location_null_unless_truthy (hl : Highlight) (book : BookRec)
    (w : World) (hsch : w.schedule w.nCalls = true) :
    ∃ w' rec, createHighlight hl book w = .ok () w' ∧
      w'.remoteHighlights = w.remoteHighlights ++ [rec] ∧
      rec.metadata.location =
        (match hl.location with
         | .undef => none
         | .num n => if n = 0 then none else some (toString n)
         | .str s => if s = "" then none else some s) := by
  refine ⟨_, highlightParams hl book (w.uuidOf w.nUuids),
    createHighlight_ok hsch, rfl, ?_⟩
  rw [highlightParams_location]
  cases hloc : hl.location with
  | undef => rfl
  | num n =>
    by_cases hn : n = 0
    · subst hn
      simp [LocValue.truthy]
    · simp [LocValue.truthy, LocValue.toJsString, hn]
  | str s =>
    by_cases hs : s = ""
    · subst hs
      simp [LocValue.truthy]
    · simp [LocValue.truthy, LocValue.toJsString, hs]

/-- Witness for C10: a candidate whose location is the (falsy) number `0` is
persisted with a `null` location. -/
theorem claim_C10_witness :
    ∃ w' rec,
      createHighlight { content := "x", location := .num 0 } bookA okCachedWorld =
        .ok () w' ∧
      w'.remoteHighlights = okCachedWorld.remoteHighlights ++ [rec] ∧
      rec.metadata.location = none :=
  claim_C10_location_null_unless_truthy { content := "x", location := .num 0 }
    bookA okCachedWorld rfl

end HighlightUtils

